import Mathlib

/-!
Verification development for the luminara-cookie-jar plugin.

Part 1 embeds the plugin glue from src/index.js: header merging in the
onRequest hook, URL resolution, Set-Cookie extraction, per-response
deduplication and the per-cookie store loop of storeSetCookiesFromResponse,
and the jar-allocation behaviour of cookieJarPlugin.

Part 2 models the cookie engine (parser, store, matcher, jar facade) from
the design document, since the repository delegates it to an external
dependency; those definitions carry a doc comment marking them as modelled
from the spec.

JavaScript string truthiness is modelled by taking the empty string for a
missing or falsy value. JavaScript strings are modelled as Lean strings,
with character-list helpers so that all definitions evaluate by kernel
reduction.
-/

namespace LCJ

/-- Splits a character list on every occurrence of the separator, like the
JavaScript split with a one-character separator. -/
def splitListOn (sep : Char) : List Char → List (List Char)
  | [] => [[]]
  | c :: cs =>
    let r := splitListOn sep cs
    if c = sep then [] :: r
    else
      match r with
      | [] => [[c]]
      | g :: gs => (c :: g) :: gs

/-- Boolean test that the first list is an initial segment of the second. -/
def isPrefixList : List Char → List Char → Bool
  | [], _ => true
  | _ :: _, [] => false
  | a :: as, b :: bs => a = b && isPrefixList as bs

/-- Boolean test that the first list is a final segment of the second. -/
def isSuffixList (p s : List Char) : Bool :=
  isPrefixList p.reverse s.reverse

/-- Splits at the first occurrence of the separator character, returning the
parts before and after it, or none when the separator does not occur. -/
def splitFirstOn (sep : Char) : List Char → Option (List Char × List Char)
  | [] => none
  | c :: cs =>
    if c = sep then some ([], cs)
    else
      match splitFirstOn sep cs with
      | none => none
      | some (a, b) => some (c :: a, b)

/-- Splits at the first occurrence of a separator substring. -/
def splitFirstSub (sep : List Char) : List Char → Option (List Char × List Char)
  | [] => none
  | c :: cs =>
    if isPrefixList sep (c :: cs) then some ([], (c :: cs).drop sep.length)
    else
      match splitFirstSub sep cs with
      | none => none
      | some (a, b) => some (c :: a, b)

/-- Removes leading and trailing whitespace. -/
def trimList (cs : List Char) : List Char :=
  ((cs.dropWhile Char.isWhitespace).reverse.dropWhile Char.isWhitespace).reverse

/-- Lowercases every character. -/
def lowerList (cs : List Char) : List Char := cs.map Char.toLower

/-- Parses a nonempty all-digit list as a natural number. -/
def parseNatList (cs : List Char) : Option Nat :=
  if cs.isEmpty then none
  else if cs.all Char.isDigit then
    some (cs.foldl (fun acc c => acc * 10 + (c.toNat - 48)) 0)
  else none

/-- Parses an optionally minus-signed decimal integer. -/
def parseIntList : List Char → Option Int
  | '-' :: rest => (parseNatList rest).map (fun n => -(n : Int))
  | cs => (parseNatList cs).map (fun n => (n : Int))

/-- Boolean prefix test on strings. -/
def strStartsWith (s p : String) : Bool := isPrefixList p.data s.data

/-- Boolean suffix test on strings. -/
def strEndsWith (s p : String) : Bool := isSuffixList p.data s.data

/-- JavaScript logical-or on strings: the left operand unless it is the
empty string (falsy), in which case the right operand. -/
def jsOr (a b : String) : String := if a = "" then b else a

/-! ## Part 1: the plugin glue of src/index.js -/

/-- Request headers, modelled as the ordered key-value pairs of the
JavaScript headers object. -/
abbrev Headers := List (String × String)

/-- Reads a header by exact key, the empty string when absent, matching
JavaScript property access followed by a falsy check. -/
def getHd (hs : Headers) (k : String) : String :=
  match hs.find? (fun p => p.1 == k) with
  | some p => p.2
  | none => ""

/-- Object spread update: if the key is present its value is replaced in
place, otherwise the pair is appended at the end, matching a JavaScript
spread with one extra literal key. -/
def setHd (hs : Headers) (k v : String) : Headers :=
  if hs.any (fun p => p.1 == k) then
    hs.map (fun p => if p.1 == k then (k, v) else p)
  else hs ++ [(k, v)]

/-- The header transformation of the onRequest hook of src/index.js, given
the string the jar returned for the request URL: read the existing Cookie
header (capital or lowercase key), and when the jar string is nonempty
write a Cookie header that is the existing value, a separator, then the jar
string, or the jar string alone when there was no existing value. When the
jar string is empty the headers are left untouched. -/
def onRequestHeaders (jarCookie : String) (headers : Headers) : Headers :=
  let existingCookie := jsOr (getHd headers "Cookie") (getHd headers "cookie")
  if jarCookie ≠ "" then
    let mergedCookie :=
      if existingCookie ≠ "" then existingCookie ++ "; " ++ jarCookie
      else jarCookie
    setHd headers "Cookie" mergedCookie
  else headers

/-- Request context fields read by resolveAbsoluteUrl of src/index.js; a
missing or falsy field is the empty string. -/
structure ReqCtx where
  url : String
  reqUrl : String
  reqBaseURL : String
  clientBaseURL : String
deriving DecidableEq

/-- Removes one trailing slash when present, the regex replace of a single
trailing slash in src/index.js. -/
def stripOneTrailingSlash (s : String) : String :=
  if strEndsWith s "/" then String.mk s.data.dropLast else s

/-- Removes one leading slash when present, the regex replace of a single
leading slash in src/index.js. -/
def stripOneLeadingSlash (s : String) : String :=
  if strStartsWith s "/" then String.mk (s.data.drop 1) else s

/-- The URL resolution of src/index.js: a truthy context url wins; an
absolute request url is used as is; otherwise the request baseURL or the
client baseURL joins the request url with exactly one slash; with no base
the request url itself is returned. -/
def resolveAbsoluteUrl (ctx : ReqCtx) : String :=
  if ctx.url ≠ "" then ctx.url
  else
    let requestUrl := ctx.reqUrl
    if strStartsWith requestUrl "http://" || strStartsWith requestUrl "https://" then
      requestUrl
    else
      let base := jsOr ctx.reqBaseURL ctx.clientBaseURL
      if base = "" then requestUrl
      else stripOneTrailingSlash base ++ "/" ++ stripOneLeadingSlash requestUrl

/-- The shapes of response headers object probed by
storeSetCookiesFromResponse: a fetch-style object with a getSetCookie
method, an object with only a get method, or a plain object with neither. -/
inductive HeaderShape where
  | fetchHeaders (setCookies : List String)
  | getOnly (single : Option String)
  | plain
deriving DecidableEq

/-- The fields of a response object read by storeSetCookiesFromResponse:
the headers object (none when falsy), and the node-style set-cookie arrays
reachable through raw.headers and meta (none when absent or not an
array). -/
structure Res where
  headers : Option HeaderShape
  rawSetCookie : Option (List String)
  metaSetCookie : Option (List String)

/-- The Set-Cookie value extraction of storeSetCookiesFromResponse: nothing
when the response or its headers object is missing; otherwise the values
from getSetCookie, or the single value from get when nonempty, followed by
the node-style array from raw.headers or else meta when one is present. -/
def extractSetCookieValues (res : Option Res) : List String :=
  match res with
  | none => []
  | some r =>
    match r.headers with
    | none => []
    | some hs =>
      let fromShape :=
        match hs with
        | .fetchHeaders cs => cs
        | .getOnly (some s) => if s ≠ "" then [s] else []
        | .getOnly none => []
        | .plain => []
      let maybeArray :=
        match r.rawSetCookie with
        | some a => some a
        | none => r.metaSetCookie
      match maybeArray with
      | some a => fromShape ++ a
      | none => fromShape

/-- The seen-set filter of storeSetCookiesFromResponse: keeps the first
occurrence of each literal string value and drops later repeats. -/
def dedupAux (seen : List String) : List String → List String
  | [] => []
  | v :: rest =>
    if v ∈ seen then dedupAux seen rest
    else v :: dedupAux (v :: seen) rest

/-- The per-cookie store loop of storeSetCookiesFromResponse: each value is
handed to the jar in order; a failed store is caught and skipped and the
loop continues with the unchanged jar state, so the loop always returns a
state and never propagates an error. -/
def storeLoop (set : σ → String → Except ε σ) : σ → List String → σ
  | s, [] => s
  | s, v :: rest =>
    match set s v with
    | .ok s2 => storeLoop set s2 rest
    | .error _ => storeLoop set s rest

/-- storeSetCookiesFromResponse of src/index.js, parameterised by the jar
state type and its per-cookie store operation: extract the Set-Cookie
values, drop literal duplicates, then run the store loop. -/
def storeSetCookiesFromResponse (set : σ → String → Except ε σ) (jar : σ)
    (res : Option Res) : σ :=
  storeLoop set jar (dedupAux [] (extractSetCookieValues res))

/-- A world of jar instances for the allocation behaviour of
cookieJarPlugin: jar states indexed by identity, with a counter supplying
fresh identities for the new-CookieJar call. -/
structure JarWorld (σ : Type) where
  nextId : Nat
  jars : Nat → σ

/-- cookieJarPlugin of src/index.js at the level of jar identity: with a
caller-supplied jar the plugin holds that very reference and the world is
unchanged; without one it allocates a fresh jar initialised to the given
state. -/
def mkPlugin (opt : Option Nat) (init : σ) (w : JarWorld σ) : Nat × JarWorld σ :=
  match opt with
  | some j => (j, w)
  | none =>
    (w.nextId,
     { nextId := w.nextId + 1,
       jars := fun i => if i = w.nextId then init else w.jars i })

/-- Applies one jar operation to the jar with the given identity, leaving
every other jar untouched. -/
def applyOp (w : JarWorld σ) (id : Nat) (f : σ → σ) : JarWorld σ :=
  { w with jars := fun i => if i = id then f (w.jars i) else w.jars i }

/-- Applies a sequence of jar operations, in commit order, to the jar with
the given identity. -/
def applyOps (w : JarWorld σ) (id : Nat) (ops : List (σ → σ)) : JarWorld σ :=
  ops.foldl (fun acc f => applyOp acc id f) w

/-! ## Part 2: the cookie engine, modelled from the design document -/

/-- Modelled from the spec: the typed errors of the parser and the jar
facade, section 7 of the design document; the repository delegates the
engine to an external dependency, so these are taken from the
document. -/
inductive ParseError where
  | malformedCookie
  | invalidName
  | invalidValue
  | domainMismatch
  | invalidUrl
deriving DecidableEq

/-- Modelled from the spec: the parts of an absolute URL the engine reads,
scheme, host and path. -/
structure ParsedUrl where
  scheme : String
  host : String
  path : String
deriving DecidableEq

/-- Modelled from the spec: URL parsing for the jar operations, with a
lowercase-normalised host; an empty or unparsable URL yields none, which
the facade reports as InvalidUrl. -/
def parseUrl (url : String) : Option ParsedUrl :=
  match splitFirstSub "://".data url.data with
  | none => none
  | some (schemeCs, rest) =>
    if schemeCs.isEmpty || rest.isEmpty then none
    else
      match splitFirstOn '/' rest with
      | none => some ⟨String.mk (lowerList schemeCs), String.mk (lowerList rest), "/"⟩
      | some (hostCs, pathRest) =>
        if hostCs.isEmpty then none
        else
          some ⟨String.mk (lowerList schemeCs), String.mk (lowerList hostCs),
                String.mk ('/' :: pathRest)⟩

/-- Modelled from the spec: one stored cookie and its attributes, section 3
of the design document; expiry is none for a session cookie and an
absolute timestamp otherwise, and times are integer timestamps. -/
structure Cookie where
  name : String
  value : String
  domain : String
  hostOnly : Bool
  path : String
  secure : Bool
  httpOnly : Bool
  sameSite : String
  expiry : Option Int
  creationTime : Int
  lastAccessTime : Int
deriving DecidableEq

/-- Modelled from the spec: characters allowed in a cookie name, no
control characters, no whitespace, no equals sign, no semicolon. -/
def isNameChar (c : Char) : Bool :=
  decide (0x21 ≤ c.toNat) && decide (c.toNat ≠ 0x7F) && c ≠ '=' && c ≠ ';'

/-- Modelled from the spec: the permitted cookie-octet characters of a
cookie value, the RFC 6265 cookie-octet set. -/
def isCookieOctet (c : Char) : Bool :=
  decide (c.toNat = 0x21) || (decide (0x23 ≤ c.toNat) && decide (c.toNat ≤ 0x2B)) ||
  (decide (0x2D ≤ c.toNat) && decide (c.toNat ≤ 0x3A)) ||
  (decide (0x3C ≤ c.toNat) && decide (c.toNat ≤ 0x5B)) ||
  (decide (0x5D ≤ c.toNat) && decide (c.toNat ≤ 0x7E))

/-- Joins path segments back with slashes. -/
def joinWithSlash : List (List Char) → List Char
  | [] => []
  | [g] => g
  | g :: gs => g ++ '/' :: joinWithSlash gs

/-- Modelled from the spec: the default-path algorithm, the directory
portion of the setting request path up to and excluding the final
slash-terminated segment, the root path when there is no directory
portion. -/
def defaultPath (reqPath : String) : String :=
  let cs := reqPath.data
  if !isPrefixList "/".data cs then "/"
  else
    let pref := (splitListOn '/' cs).dropLast
    if pref.length ≤ 1 then "/" else String.mk (joinWithSlash pref)

/-- Modelled from the spec: quote stripping on a cookie value, removing one
pair of surrounding double quotes when both are present. -/
def unquoteValue (cs : List Char) : List Char :=
  match cs with
  | '"' :: rest => if rest.getLast? = some '"' then rest.dropLast else cs
  | _ => cs

/-- Modelled from the spec: the attributes accumulated from the attribute
segments of one Set-Cookie string. -/
structure RawAttrs where
  domain : Option (List Char)
  path : Option (List Char)
  maxAge : Option Int
  expires : Option Int
  secure : Bool
  httpOnly : Bool
  sameSite : String
deriving DecidableEq

/-- Modelled from the spec: processing of one attribute segment, trimmed
and split at the first equals sign, with a case-insensitive attribute
name; a Domain value is lowercased and loses one leading dot; a Path value
is used only when it starts with a slash; Max-Age must be a signed
integer; a non-parseable Expires is ignored; the Expires date grammar is
not pinned by the document and is modelled as a decimal timestamp; unknown
attributes are ignored. -/
def applyAttr (acc : RawAttrs) (seg : List Char) : RawAttrs :=
  let t := trimList seg
  let pair :=
    match splitFirstOn '=' t with
    | some (a, b) => (a, some b)
    | none => (t, (none : Option (List Char)))
  let key := lowerList (trimList pair.1)
  if key = "domain".data then
    match pair.2 with
    | some d =>
      let d2 := lowerList (trimList d)
      let d3 := match d2 with | '.' :: rest => rest | _ => d2
      if d3.isEmpty then acc else { acc with domain := some d3 }
    | none => acc
  else if key = "path".data then
    match pair.2 with
    | some p =>
      let p2 := trimList p
      if isPrefixList "/".data p2 then { acc with path := some p2 } else acc
    | none => acc
  else if key = "max-age".data then
    match pair.2 with
    | some m =>
      match parseIntList (trimList m) with
      | some n => { acc with maxAge := some n }
      | none => acc
    | none => acc
  else if key = "expires".data then
    match pair.2 with
    | some e =>
      match parseIntList (trimList e) with
      | some n => { acc with expires := some n }
      | none => acc
    | none => acc
  else if key = "secure".data then { acc with secure := true }
  else if key = "httponly".data then { acc with httpOnly := true }
  else if key = "samesite".data then
    match pair.2 with
    | some s => { acc with sameSite := String.mk (trimList s) }
    | none => acc
  else acc

/-- Modelled from the spec: the Set-Cookie parser, section 4.1 of the
design document. The string splits on semicolons; the first segment must
contain an equals sign (else MalformedCookie) and yields the trimmed name
(nonempty and of legal characters, else InvalidName) and value (quotes
stripped, cookie-octets only, else InvalidValue); a declared Domain must be
a suffix of the request host, else DomainMismatch, and its absence makes a
host-only cookie on the request host; a missing or slash-less Path falls
back to the default-path of the request URL; Max-Age wins over Expires and
yields an absolute expiry relative to now; creation and last-access times
are set to now. -/
def parseSetCookie (now : Int) (u : ParsedUrl) (raw : String) :
    Except ParseError Cookie :=
  match splitListOn ';' raw.data with
  | [] => .error .malformedCookie
  | first :: attrSegs =>
    match splitFirstOn '=' first with
    | none => .error .malformedCookie
    | some (n0, v0) =>
      let name := trimList n0
      if name.isEmpty then .error .invalidName
      else if !name.all isNameChar then .error .invalidName
      else
        let value := unquoteValue (trimList v0)
        if !value.all isCookieOctet then .error .invalidValue
        else
          let a := attrSegs.foldl applyAttr ⟨none, none, none, none, false, false, ""⟩
          let path :=
            match a.path with
            | some p => String.mk p
            | none => defaultPath u.path
          let expiry : Option Int :=
            match a.maxAge with
            | some m => some (now + m)
            | none => a.expires
          let mkCookie := fun (dom : String) (ho : Bool) =>
            ({ name := String.mk name, value := String.mk value, domain := dom,
               hostOnly := ho, path := path, secure := a.secure,
               httpOnly := a.httpOnly, sameSite := a.sameSite, expiry := expiry,
               creationTime := now, lastAccessTime := now } : Cookie)
          match a.domain with
          | some d =>
            if isSuffixList d u.host.data then .ok (mkCookie (String.mk d) false)
            else .error .domainMismatch
          | none => .ok (mkCookie u.host true)

/-- Modelled from the spec: the store identity key, equality of the triple
of domain, path and name. -/
def keyEq (a b : Cookie) : Bool :=
  a.domain == b.domain && a.path == b.path && a.name == b.name

/-- Modelled from the spec: insert-or-update of the store, section 4.2 of
the design document; an entry with the same key is replaced in place with
the original creationTime preserved, otherwise the cookie is appended. -/
def upsert (store : List Cookie) (c : Cookie) : List Cookie :=
  match store.find? (fun x => keyEq x c) with
  | some old =>
    store.map (fun x => if keyEq x c then { c with creationTime := old.creationTime } else x)
  | none => store ++ [c]

/-- Modelled from the spec: the jar facade setCookie, section 4.4 of the
design document; parse, then either remove the same-key entry when the
parsed expiry is already due (Max-Age zero or negative, or a past
Expires), or upsert. -/
def setCookie (store : List Cookie) (raw url : String) (now : Int) :
    Except ParseError (List Cookie) :=
  match parseUrl url with
  | none => .error .invalidUrl
  | some u =>
    match parseSetCookie now u raw with
    | .error e => .error e
    | .ok c =>
      match c.expiry with
      | some t =>
        if t ≤ now then .ok (store.filter (fun x => !keyEq x c))
        else .ok (upsert store c)
      | none => .ok (upsert store c)

/-- Modelled from the spec: domain matching, rule 2 of the matcher; a
host-only cookie needs the exact host, a domain cookie also covers every
subdomain. -/
def domainMatch (host : String) (c : Cookie) : Bool :=
  if c.hostOnly then host == c.domain
  else host == c.domain || isSuffixList ("." ++ c.domain).data host.data

/-- Modelled from the spec: path matching, rule 3 of the matcher; equality,
or a prefix whose boundary is a slash on either side. -/
def pathMatch (reqPath cookiePath : String) : Bool :=
  cookiePath == reqPath ||
  (isPrefixList cookiePath.data reqPath.data &&
    (strEndsWith cookiePath "/" ||
      isPrefixList "/".data (reqPath.data.drop cookiePath.data.length)))

/-- Modelled from the spec: the full matcher filter, rules 1 to 4; not yet
expired, domain match, path match, and a secure cookie only over the
secure scheme. -/
def cookieMatches (u : ParsedUrl) (now : Int) (c : Cookie) : Bool :=
  (match c.expiry with
   | some t => decide (now < t)
   | none => true) &&
  domainMatch u.host c && pathMatch u.path c.path &&
  (!c.secure || u.scheme == "https")

/-- Modelled from the spec: the result ordering of the matcher, longer path
first, then earlier creationTime first. -/
def cookieBefore (a b : Cookie) : Bool :=
  decide (b.path.length < a.path.length) ||
  (decide (a.path.length = b.path.length) && decide (a.creationTime ≤ b.creationTime))

/-- Sorts a selection by the matcher ordering. -/
def sortCookies (cs : List Cookie) : List Cookie :=
  List.insertionSort (fun a b => cookieBefore a b = true) cs

/-- Modelled from the spec: the jar facade getCookies, the ordered matcher
selection, failing with InvalidUrl on an unparsable URL. -/
def getCookies (store : List Cookie) (url : String) (now : Int) :
    Except ParseError (List Cookie) :=
  match parseUrl url with
  | none => .error .invalidUrl
  | some u => .ok (sortCookies (store.filter (cookieMatches u now)))

/-- Modelled from the spec: serialization of a selection, name equals value
pairs joined by a semicolon and a space. -/
def serializeCookies (cs : List Cookie) : String :=
  String.intercalate "; " (cs.map (fun c => c.name ++ "=" ++ c.value))

/-- Modelled from the spec: the jar facade getCookieString, the serialized
selection of getCookies. -/
def getCookieString (store : List Cookie) (url : String) (now : Int) :
    Except ParseError String :=
  (getCookies store url now).map serializeCookies

/-- A toy jar for exercising the store loop: the stored values are kept in
a list, and a value with no equals sign fails to store, like the malformed
cookie of the specification scenario. -/
def toyStore (s : List String) (v : String) : Except String (List String) :=
  if ((splitFirstOn '=' v.data).map (fun _ => true)).getD false then
    Except.ok (s ++ [v])
  else Except.error "no name value pair"

/-- The ordering relation of the specification on matcher results: longer
path first, and at equal path length earlier creationTime first. -/
def specOrder (a b : Cookie) : Prop :=
  b.path.length < a.path.length ∨
    (a.path.length = b.path.length ∧ a.creationTime ≤ b.creationTime)

/-- The cookie produced by setting name=root with Path=/ on example.com at
time 1. -/
def rootCookie : Cookie :=
  { name := "name", value := "root", domain := "example.com", hostOnly := true,
    path := "/", secure := false, httpOnly := false, sameSite := "",
    expiry := none, creationTime := 1, lastAccessTime := 1 }

/-- The cookie produced by setting name=api with Path=/api on example.com
at time 2. -/
def apiCookie : Cookie :=
  { name := "name", value := "api", domain := "example.com", hostOnly := true,
    path := "/api", secure := false, httpOnly := false, sameSite := "",
    expiry := none, creationTime := 2, lastAccessTime := 2 }

/-- The cookie produced by setting sid=1 with Path=/ on example.com at
time 5. -/
def sid1 : Cookie :=
  { name := "sid", value := "1", domain := "example.com", hostOnly := true,
    path := "/", secure := false, httpOnly := false, sameSite := "",
    expiry := none, creationTime := 5, lastAccessTime := 5 }

/-- The cookie produced by setting sid=gone with Max-Age=0 and Path=/ on
example.com at time 6, an immediate-removal cookie. -/
def goneCookie : Cookie :=
  { name := "sid", value := "gone", domain := "example.com", hostOnly := true,
    path := "/", secure := false, httpOnly := false, sameSite := "",
    expiry := some 6, creationTime := 6, lastAccessTime := 6 }

/-! ## Theorems -/

/-- When the key occurs in the header list, the spread update is found at
that key with the new value. -/
theorem find_update_of_any (hs : Headers) (k v : String)
    (h : hs.any (fun p => p.1 == k) = true) :
    (hs.map (fun p => if p.1 == k then (k, v) else p)).find?
      (fun p => p.1 == k) = some (k, v) := by
  induction hs with
  | nil => simp at h
  | cons p t ih =>
    by_cases hp : (p.1 == k) = true
    · simp only [List.map_cons, if_pos hp]
      exact List.find?_cons_of_pos _ (by simp)
    · simp only [List.any_cons, Bool.or_eq_true] at h
      rcases h with h | h
      · exact absurd h hp
      · simp only [List.map_cons, if_neg hp]
        rw [List.find?_cons_of_neg (p := fun q : String × String => q.1 == k) _ hp]
        exact ih h

/-- When the key does not occur in the header list, the appended pair is
what is found at the key. -/
theorem find_append_of_not_any (hs : Headers) (k v : String)
    (h : hs.any (fun p => p.1 == k) = false) :
    (hs ++ [(k, v)]).find? (fun p => p.1 == k) = some (k, v) := by
  induction hs with
  | nil => exact List.find?_cons_of_pos _ (by simp)
  | cons p t ih =>
    simp only [List.any_cons, Bool.or_eq_false_iff] at h
    rw [List.cons_append,
      List.find?_cons_of_neg (p := fun q : String × String => q.1 == k) _ (by simp [h.1])]
    exact ih h.2

/-- Reading back a header just written by the spread update yields the
written value. -/
theorem getHd_setHd (hs : Headers) (k v : String) : getHd (setHd hs k v) k = v := by
  unfold getHd setHd
  by_cases h : hs.any (fun p => p.1 == k) = true
  · rw [if_pos h, find_update_of_any hs k v h]
  · rw [if_neg h, find_append_of_not_any hs k v (by revert h; cases hs.any (fun p => p.1 == k) <;> simp)]

/-- C1: when the request headers already carry a nonempty Cookie value,
read from the capital key or else the lowercase key exactly as the hook
does, and the jar string is nonempty, the outgoing Cookie header is the
caller value, then the separator, then the jar string, so caller cookies
come first and are never dropped or overwritten even by a jar cookie of
the same name. -/
theorem onRequest_merges_jar_after_manual_cookie (headers : Headers) (jarCookie : String)
    (hman : jsOr (getHd headers "Cookie") (getHd headers "cookie") ≠ "")
    (hjar : jarCookie ≠ "") :
    getHd (onRequestHeaders jarCookie headers) "Cookie" =
      jsOr (getHd headers "Cookie") (getHd headers "cookie") ++ "; " ++ jarCookie := by
  unfold onRequestHeaders
  rw [if_pos hjar, if_pos hman]
  exact getHd_setHd headers "Cookie" _

/-- Witness for C1 on the concrete scenario of the specification: a manual
header and a jar cookie are both present in the merged header. -/
theorem onRequest_merges_jar_after_manual_cookie_witness :
    getHd (onRequestHeaders "jar_cookie=from_jar"
        [("Cookie", "manual_cookie=from_header")]) "Cookie" =
      jsOr (getHd [("Cookie", "manual_cookie=from_header")] "Cookie")
          (getHd [("Cookie", "manual_cookie=from_header")] "cookie") ++
        "; " ++ "jar_cookie=from_jar" :=
  onRequest_merges_jar_after_manual_cookie
    [("Cookie", "manual_cookie=from_header")] "jar_cookie=from_jar"
    (by decide) (by decide)

/-- C8: when the jar yields the empty cookie string, the onRequest hook
returns the headers object unchanged, adding and modifying nothing. -/
theorem onRequest_empty_jar_string_leaves_headers (headers : Headers) :
    onRequestHeaders "" headers = headers := by
  simp [onRequestHeaders]

/-- C10: the URL resolution is a pure case split on the context: a truthy
context url verbatim; else an absolute request url verbatim; else, with a
truthy base, the base stripped of one trailing slash joined by a single
slash to the request url stripped of one leading slash; with no base, the
request url itself. -/
theorem resolveAbsoluteUrl_cases (ctx : ReqCtx) :
    (ctx.url ≠ "" → resolveAbsoluteUrl ctx = ctx.url) ∧
    (ctx.url = "" →
      (strStartsWith ctx.reqUrl "http://" || strStartsWith ctx.reqUrl "https://") = true →
      resolveAbsoluteUrl ctx = ctx.reqUrl) ∧
    (ctx.url = "" →
      (strStartsWith ctx.reqUrl "http://" || strStartsWith ctx.reqUrl "https://") = false →
      jsOr ctx.reqBaseURL ctx.clientBaseURL ≠ "" →
      resolveAbsoluteUrl ctx =
        stripOneTrailingSlash (jsOr ctx.reqBaseURL ctx.clientBaseURL) ++ "/" ++
          stripOneLeadingSlash ctx.reqUrl) ∧
    (ctx.url = "" →
      (strStartsWith ctx.reqUrl "http://" || strStartsWith ctx.reqUrl "https://") = false →
      jsOr ctx.reqBaseURL ctx.clientBaseURL = "" →
      resolveAbsoluteUrl ctx = ctx.reqUrl) := by
  refine ⟨fun h1 => ?_, fun h1 h2 => ?_, fun h1 h2 h3 => ?_, fun h1 h2 h3 => ?_⟩ <;>
    simp_all [resolveAbsoluteUrl]

/-- Witness for C10: each of the four resolution cases fires on a concrete
request context. -/
theorem resolveAbsoluteUrl_cases_witness :
    resolveAbsoluteUrl ⟨"http://ctx.example/x", "/y", "http://b.example", ""⟩ =
      "http://ctx.example/x" ∧
    resolveAbsoluteUrl ⟨"", "https://abs.example/z", "http://b.example", ""⟩ =
      "https://abs.example/z" ∧
    resolveAbsoluteUrl ⟨"", "/users", "http://b.example/", ""⟩ =
      stripOneTrailingSlash (jsOr "http://b.example/" "") ++ "/" ++
        stripOneLeadingSlash "/users" ∧
    resolveAbsoluteUrl ⟨"", "relative/path", "", ""⟩ = "relative/path" :=
  ⟨(resolveAbsoluteUrl_cases _).1 (by decide),
   (resolveAbsoluteUrl_cases _).2.1 rfl (by decide),
   (resolveAbsoluteUrl_cases _).2.2.1 rfl (by decide) (by decide),
   (resolveAbsoluteUrl_cases _).2.2.2 rfl (by decide) rfl⟩

/-- C9: when the response is absent, or carries no headers object, the
response hook leaves the jar state exactly as it was, and returns without
error since it is a total function. -/
theorem onResponse_missing_headers_is_noop (set : σ → String → Except ε σ) (jar : σ)
    (res : Option Res) :
    (res = none → storeSetCookiesFromResponse set jar res = jar) ∧
    (∀ r : Res, res = some r → r.headers = none →
      storeSetCookiesFromResponse set jar res = jar) := by
  constructor
  · rintro rfl
    rfl
  · rintro r rfl hh
    simp [storeSetCookiesFromResponse, extractSetCookieValues, hh, dedupAux, storeLoop]

/-- Witness for C9 at a concrete jar and responses: no response, and a
response with set-cookie arrays but no headers object, both leave the jar
untouched. -/
theorem onResponse_missing_headers_is_noop_witness :
    storeSetCookiesFromResponse (fun (s : Nat) (_ : String) => (Except.ok (s + 1) : Except Unit Nat)) 7 none = 7 ∧
    storeSetCookiesFromResponse (fun (s : Nat) (_ : String) => (Except.ok (s + 1) : Except Unit Nat)) 7
      (some ⟨none, some ["a=b"], some ["c=d"]⟩) = 7 :=
  ⟨(onResponse_missing_headers_is_noop _ 7 none).1 rfl,
   (onResponse_missing_headers_is_noop _ 7 (some ⟨none, some ["a=b"], some ["c=d"]⟩)).2
     ⟨none, some ["a=b"], some ["c=d"]⟩ rfl rfl⟩

/-- The store loop processes a concatenation by processing the first part
and continuing from the resulting state. -/
theorem storeLoop_append (set : σ → String → Except ε σ) (s : σ) (xs ys : List String) :
    storeLoop set s (xs ++ ys) = storeLoop set (storeLoop set s xs) ys := by
  induction xs generalizing s with
  | nil => rfl
  | cons v rest ih =>
    rw [List.cons_append]
    cases hsv : set s v with
    | ok s2 =>
      have l1 : storeLoop set s (v :: (rest ++ ys)) = storeLoop set s2 (rest ++ ys) := by
        simp only [storeLoop, hsv]
      have l2 : storeLoop set s (v :: rest) = storeLoop set s2 rest := by
        simp only [storeLoop, hsv]
      rw [l1, l2, ih]
    | error e =>
      have l1 : storeLoop set s (v :: (rest ++ ys)) = storeLoop set s (rest ++ ys) := by
        simp only [storeLoop, hsv]
      have l2 : storeLoop set s (v :: rest) = storeLoop set s rest := by
        simp only [storeLoop, hsv]
      rw [l1, l2, ih]

/-- C2: a cookie value whose store attempt fails is caught and skipped: the
whole ingestion runs as if that one value were absent, so every other value
of the response is still processed and stored from the same state, and no
error propagates since the loop is a total function into jar states. -/
theorem onResponse_bad_cookie_isolated (set : σ → String → Except ε σ) (s : σ)
    (pre : List String) (v : String) (post : List String) (e : ε)
    (h : set (storeLoop set s pre) v = .error e) :
    storeLoop set s (pre ++ v :: post) = storeLoop set s (pre ++ post) := by
  rw [storeLoop_append, storeLoop_append]
  simp only [storeLoop, h]

/-- Witness for C2 on the concrete scenario of the specification: the
malformed value fails to store, and ingestion of the response is the same
as if only the well-formed session cookie had arrived. -/
theorem onResponse_bad_cookie_isolated_witness :
    toyStore (storeLoop toyStore [] []) "malformed" = .error "no name value pair" ∧
    storeLoop toyStore [] ([] ++ "malformed" :: ["session=abc123; Path=/"]) =
      storeLoop toyStore [] ([] ++ ["session=abc123; Path=/"]) :=
  ⟨rfl,
   onResponse_bad_cookie_isolated toyStore [] [] "malformed"
     ["session=abc123; Path=/"] "no name value pair" rfl⟩

/-- Membership in the deduplicated list is membership in the input minus
the already-seen values. -/
theorem mem_dedupAux (v : String) :
    ∀ (vs seen : List String), v ∈ dedupAux seen vs ↔ v ∈ vs ∧ v ∉ seen := by
  intro vs
  induction vs with
  | nil => intro seen; simp [dedupAux]
  | cons w rest ih =>
    intro seen
    by_cases hw : w ∈ seen
    · rw [dedupAux, if_pos hw, ih]
      constructor
      · rintro ⟨h1, h2⟩
        exact ⟨List.mem_cons_of_mem _ h1, h2⟩
      · rintro ⟨h1, h2⟩
        rcases List.mem_cons.mp h1 with rfl | h1
        · exact absurd hw h2
        · exact ⟨h1, h2⟩
    · rw [dedupAux, if_neg hw]
      rw [List.mem_cons, ih (w :: seen)]
      constructor
      · rintro (rfl | ⟨h1, hn⟩)
        · exact ⟨List.mem_cons_self _ _, hw⟩
        · exact ⟨List.mem_cons_of_mem _ h1, fun hs => hn (List.mem_cons_of_mem _ hs)⟩
      · rintro ⟨h1, h2⟩
        by_cases hv : v = w
        · exact Or.inl hv
        · rcases List.mem_cons.mp h1 with rfl | h1
          · exact Or.inl rfl
          · refine Or.inr ⟨h1, fun hs => ?_⟩
            rcases List.mem_cons.mp hs with rfl | hs2
            · exact hv rfl
            · exact h2 hs2

/-- The deduplicated list has no duplicates. -/
theorem nodup_dedupAux : ∀ (vs seen : List String), (dedupAux seen vs).Nodup := by
  intro vs
  induction vs with
  | nil => intro seen; simp [dedupAux]
  | cons w rest ih =>
    intro seen
    by_cases hw : w ∈ seen
    · rw [dedupAux, if_pos hw]
      exact ih seen
    · rw [dedupAux, if_neg hw]
      refine List.nodup_cons.mpr ⟨fun hmem => ?_, ih _⟩
      exact ((mem_dedupAux w rest (w :: seen)).mp hmem).2 (List.mem_cons_self w seen)

/-- C3: response ingestion hands the jar exactly the distinct literal
Set-Cookie values of the response in first-occurrence order: the store loop
runs on a duplicate-free list containing precisely the extracted header
occurrences, so a repeated literal value is stored at most once per
response, and each surviving value is handed to the jar independently by
the loop. -/
theorem onResponse_dedupes_literal_values (set : σ → String → Except ε σ) (jar : σ)
    (res : Option Res) :
    storeSetCookiesFromResponse set jar res =
      storeLoop set jar (dedupAux [] (extractSetCookieValues res)) ∧
    (dedupAux [] (extractSetCookieValues res)).Nodup ∧
    (∀ v, v ∈ dedupAux [] (extractSetCookieValues res) ↔
      v ∈ extractSetCookieValues res) := by
  refine ⟨rfl, nodup_dedupAux _ _, fun v => ?_⟩
  rw [mem_dedupAux]
  simp

/-- Operations on one jar identity never touch another identity. -/
theorem applyOps_other (i : Nat) (ops : List (σ → σ)) :
    ∀ (w : JarWorld σ) (id : Nat), i ≠ id → (applyOps w id ops).jars i = w.jars i := by
  induction ops with
  | nil => intro w id hne; rfl
  | cons f rest ih =>
    intro w id hne
    have step : applyOps w id (f :: rest) = applyOps (applyOp w id f) id rest := rfl
    rw [step, ih _ id hne]
    simp [applyOp, hne]

/-- Operations on one jar identity accumulate, in commit order, on the jar
state at that identity. -/
theorem applyOps_self (id : Nat) (ops : List (σ → σ)) :
    ∀ w : JarWorld σ, (applyOps w id ops).jars id = ops.foldl (fun s f => f s) (w.jars id) := by
  induction ops with
  | nil => intro w; rfl
  | cons f rest ih =>
    intro w
    have step : applyOps w id (f :: rest) = applyOps (applyOp w id f) id rest := rfl
    rw [step, ih, List.foldl_cons]
    simp [applyOp]

/-- C4: two plugin instances constructed without the jar option allocate
distinct jars, and no operation sequence through one changes the jar the
other observes; two plugin instances handed the same jar reference hold
the same jar identity and the world is untouched by construction, so any
interleaved sequence of committed writes through either is observed by
both as the fold of those writes; allocation always takes the fresh
counter value, so no ambient jar is shared implicitly. -/
theorem plugin_jar_isolation_and_sharing (σ : Type) (init : σ) (w : JarWorld σ) :
    (mkPlugin none init w).1 ≠ (mkPlugin none init (mkPlugin none init w).2).1 ∧
    (∀ ops : List (σ → σ),
      (applyOps (mkPlugin none init (mkPlugin none init w).2).2
          (mkPlugin none init w).1 ops).jars
        (mkPlugin none init (mkPlugin none init w).2).1 =
      (mkPlugin none init (mkPlugin none init w).2).2.jars
        (mkPlugin none init (mkPlugin none init w).2).1) ∧
    (∀ ops : List (σ → σ),
      (applyOps (mkPlugin none init (mkPlugin none init w).2).2
          (mkPlugin none init (mkPlugin none init w).2).1 ops).jars
        (mkPlugin none init w).1 =
      (mkPlugin none init (mkPlugin none init w).2).2.jars
        (mkPlugin none init w).1) ∧
    (∀ j : Nat, (mkPlugin (some j) init w).1 = j ∧ (mkPlugin (some j) init w).2 = w) ∧
    (∀ (j : Nat) (ops : List (σ → σ)),
      (applyOps w (mkPlugin (some j) init w).1 ops).jars (mkPlugin (some j) init w).1 =
        ops.foldl (fun s f => f s) (w.jars j)) ∧
    (mkPlugin none init w).1 = w.nextId := by
  refine ⟨?_, ?_, ?_, ?_, ?_, rfl⟩
  · show w.nextId ≠ w.nextId + 1
    omega
  · intro ops
    exact applyOps_other _ ops _ _ (by show w.nextId + 1 ≠ w.nextId; omega)
  · intro ops
    exact applyOps_other _ ops _ _ (by show w.nextId ≠ w.nextId + 1; omega)
  · intro j
    exact ⟨rfl, rfl⟩
  · intro j ops
    exact applyOps_self j ops w

/-- C5: setting a cookie whose parsed expiry is already due, as produced by
Max-Age zero or a past Expires, removes every stored entry with the same
domain, path and name key instead of storing the cookie; consequently the
resulting store has no entry with that key, any immediate getCookies
result excludes it for every URL and time, and getCookieString is the
serialization of that same excluding selection. -/
theorem setCookie_expired_removes_key (store : List Cookie) (raw url : String)
    (now : Int) (u : ParsedUrl) (c : Cookie) (t : Int)
    (hu : parseUrl url = some u)
    (hp : parseSetCookie now u raw = .ok c)
    (ht : c.expiry = some t) (hle : t ≤ now) :
    setCookie store raw url now = .ok (store.filter (fun x => !keyEq x c)) ∧
    (∀ x ∈ store.filter (fun x => !keyEq x c), keyEq x c = false) ∧
    (∀ (url2 : String) (now2 : Int) (cs : List Cookie),
      getCookies (store.filter (fun x => !keyEq x c)) url2 now2 = .ok cs →
      ∀ x ∈ cs, keyEq x c = false) ∧
    (∀ (url2 : String) (now2 : Int),
      getCookieString (store.filter (fun x => !keyEq x c)) url2 now2 =
        (getCookies (store.filter (fun x => !keyEq x c)) url2 now2).map serializeCookies) := by
  refine ⟨?_, ?_, ?_, fun url2 now2 => rfl⟩
  · simp only [setCookie, hu, hp, ht, if_pos hle]
  · intro x hx
    have hm := (List.mem_filter.mp hx).2
    simpa using hm
  · intro url2 now2 cs h x hx
    cases hp2 : parseUrl url2 with
    | none => simp [getCookies, hp2] at h
    | some u2 =>
      simp only [getCookies, hp2, Except.ok.injEq] at h
      subst h
      have hx2 : x ∈ (store.filter (fun y => !keyEq y c)).filter (cookieMatches u2 now2) :=
        (List.perm_insertionSort (fun a b => cookieBefore a b = true) _).mem_iff.mp hx
      have hm := (List.mem_filter.mp (List.mem_filter.mp hx2).1).2
      simpa using hm

/-- Witness for C5 on a concrete store: a stored sid cookie is removed by a
Max-Age zero set for the same key, leaving an empty store. -/
theorem setCookie_expired_removes_key_witness :
    setCookie [sid1] "sid=gone; Max-Age=0; Path=/" "http://example.com/" 6 =
      .ok ([sid1].filter (fun x => !keyEq x goneCookie)) ∧
    [sid1].filter (fun x => !keyEq x goneCookie) = [] :=
  ⟨(setCookie_expired_removes_key [sid1] "sid=gone; Max-Age=0; Path=/"
      "http://example.com/" 6 ⟨"http", "example.com", "/"⟩ goneCookie 6
      rfl rfl rfl (by decide)).1,
   by decide⟩

/-- The matcher ordering is total and transitive, so the sorted selection
is pairwise ordered by it. -/
theorem cookieBefore_iff (a b : Cookie) : cookieBefore a b = true ↔ specOrder a b := by
  simp [cookieBefore, specOrder]

/-- Insertion sort by the matcher ordering yields a pairwise ordered
list. -/
theorem sortCookies_sorted (l : List Cookie) :
    List.Pairwise (fun a b => cookieBefore a b = true) (sortCookies l) := by
  haveI htot : IsTotal Cookie (fun a b => cookieBefore a b = true) := ⟨by
    intro a b
    simp only [cookieBefore_iff, specOrder]
    omega⟩
  haveI htrans : IsTrans Cookie (fun a b => cookieBefore a b = true) := ⟨by
    intro a b c hab hbc
    simp only [cookieBefore_iff, specOrder] at hab hbc ⊢
    omega⟩
  exact List.sorted_insertionSort _ l

/-- C6: every getCookies result is sorted with longer cookie path first and,
at equal path length, earlier creationTime first, and getCookieString
serializes in that order; on the concrete scenario of the specification,
setting name=root with Path=/ then name=api with Path=/api for the same
host and querying a URL under /api returns both cookies with the /api one
first, serializing to name=api before name=root. -/
theorem getCookies_sorted_by_path_then_creation :
    (∀ (store : List Cookie) (url : String) (now : Int) (cs : List Cookie),
      getCookies store url now = .ok cs → cs.Pairwise specOrder) ∧
    setCookie [] "name=root; Path=/" "http://example.com/" 1 = .ok [rootCookie] ∧
    setCookie [rootCookie] "name=api; Path=/api" "http://example.com/" 2 =
      .ok [rootCookie, apiCookie] ∧
    getCookies [rootCookie, apiCookie] "http://example.com/api/anything" 3 =
      .ok [apiCookie, rootCookie] ∧
    getCookieString [rootCookie, apiCookie] "http://example.com/api/anything" 3 =
      .ok "name=api; name=root" := by
  refine ⟨?_, rfl, rfl, rfl, rfl⟩
  intro store url now cs h
  cases hp : parseUrl url with
  | none => simp [getCookies, hp] at h
  | some u =>
    simp only [getCookies, hp, Except.ok.injEq] at h
    subst h
    exact (sortCookies_sorted _).imp (fun hab => (cookieBefore_iff _ _).mp hab)

/-- Witness for C6: the sortedness statement applied to the concrete
selection of the path-specificity scenario. -/
theorem getCookies_sorted_by_path_then_creation_witness :
    List.Pairwise specOrder [apiCookie, rootCookie] :=
  getCookies_sorted_by_path_then_creation.1 [rootCookie, apiCookie]
    "http://example.com/api/anything" 3 [apiCookie, rootCookie] rfl

/-- A creationTime update does not change the store key. -/
theorem keyEq_update (c : Cookie) (k : Int) :
    keyEq { c with creationTime := k } c = true := by
  simp [keyEq]

/-- Every cookie shares a key with itself. -/
theorem keyEq_self (c : Cookie) : keyEq c c = true := by
  simp [keyEq]

/-- Replacing every same-key entry makes the replacement the first find at
that key, provided some entry with the key was found before. -/
theorem find_update_cookie (c c2 : Cookie) (hkey : keyEq c2 c = true) :
    ∀ (store : List Cookie) (old : Cookie),
      store.find? (fun x => keyEq x c) = some old →
      (store.map (fun x => if keyEq x c then c2 else x)).find?
        (fun x => keyEq x c) = some c2 := by
  intro store
  induction store with
  | nil => intro old h; simp at h
  | cons y t ih =>
    intro old h
    by_cases hy : keyEq y c = true
    · simp only [List.map_cons, if_pos hy]
      exact List.find?_cons_of_pos _ hkey
    · simp only [List.map_cons, if_neg hy]
      rw [List.find?_cons_of_neg (p := fun x : Cookie => keyEq x c) _ hy]
      rw [List.find?_cons_of_neg (p := fun x : Cookie => keyEq x c) _ hy] at h
      exact ih old h

/-- Appending a cookie to a store holding no entry with its key makes it
the first find at that key. -/
theorem find_append_cookie (c : Cookie) :
    ∀ store : List Cookie, store.find? (fun x => keyEq x c) = none →
      (store ++ [c]).find? (fun x => keyEq x c) = some c := by
  intro store
  induction store with
  | nil => intro _; exact List.find?_cons_of_pos _ (keyEq_self c)
  | cons y t ih =>
    intro h
    have hy : ¬ keyEq y c = true :=
      List.find?_eq_none.mp h y (List.mem_cons_self _ _)
    rw [List.cons_append, List.find?_cons_of_neg (p := fun x : Cookie => keyEq x c) _ hy]
    rw [List.find?_cons_of_neg (p := fun x : Cookie => keyEq x c) _ hy] at h
    exact ih h

/-- Upserting the same parsed cookie twice equals upserting it once. -/
theorem upsert_idem (store : List Cookie) (c : Cookie) :
    upsert (upsert store c) c = upsert store c := by
  cases h : store.find? (fun x => keyEq x c) with
  | some old =>
    simp only [upsert, h,
      find_update_cookie c _ (keyEq_update c old.creationTime) store old h]
    rw [List.map_map]
    apply List.map_congr_left
    intro a _
    by_cases ha : keyEq a c = true
    · simp only [Function.comp_apply, if_pos ha, if_pos (keyEq_update c old.creationTime)]
    · simp only [Function.comp_apply, if_neg ha]
  | none =>
    simp only [upsert, h, find_append_cookie c store h, List.map_append]
    have h1 : store.map
        (fun x => if keyEq x c then { c with creationTime := c.creationTime } else x) =
        store := by
      conv_rhs => rw [← List.map_id store]
      apply List.map_congr_left
      intro a ha
      have hna : ¬ keyEq a c = true := List.find?_eq_none.mp h a ha
      simp only [if_neg hna, id]
    rw [h1]
    simp only [List.map_cons, List.map_nil, if_pos (keyEq_self c)]

/-- C7: setting the same raw cookie string twice in a row for the same URL
and time leaves the store exactly as one set does, the second call
replacing the same-key entry rather than duplicating it; and when the
original store already held an entry with that key, the entry found at the
key after the set keeps the creationTime of that original entry. -/
theorem setCookie_twice_same_as_once (store : List Cookie) (raw url : String)
    (now : Int) (store1 : List Cookie)
    (hset : setCookie store raw url now = .ok store1) :
    setCookie store1 raw url now = .ok store1 ∧
    (∀ (u : ParsedUrl) (c old e1 : Cookie),
      parseUrl url = some u → parseSetCookie now u raw = .ok c →
      store.find? (fun x => keyEq x c) = some old →
      store1.find? (fun x => keyEq x c) = some e1 →
      e1.creationTime = old.creationTime) := by
  constructor
  · cases hu : parseUrl url with
    | none => simp [setCookie, hu] at hset
    | some u =>
      cases hc : parseSetCookie now u raw with
      | error e => simp [setCookie, hu, hc] at hset
      | ok c =>
        simp only [setCookie, hu, hc] at hset ⊢
        cases hex : c.expiry with
        | some t =>
          simp only [hex] at hset ⊢
          by_cases hle : t ≤ now
          · rw [if_pos hle] at hset ⊢
            simp only [Except.ok.injEq] at hset
            subst hset
            rw [List.filter_filter]
            simp
          · rw [if_neg hle] at hset ⊢
            simp only [Except.ok.injEq] at hset
            subst hset
            rw [upsert_idem]
        | none =>
          simp only [hex] at hset ⊢
          simp only [Except.ok.injEq] at hset
          subst hset
          rw [upsert_idem]
  · intro u c old e1 hu hc hfind hfind1
    simp only [setCookie, hu, hc] at hset
    cases hex : c.expiry with
    | some t =>
      simp only [hex] at hset
      by_cases hle : t ≤ now
      · rw [if_pos hle] at hset
        simp only [Except.ok.injEq] at hset
        subst hset
        have hk := List.find?_some hfind1
        have hmem := List.mem_of_find?_eq_some hfind1
        have hnk := (List.mem_filter.mp hmem).2
        rw [hk] at hnk
        simp at hnk
      · rw [if_neg hle] at hset
        simp only [Except.ok.injEq] at hset
        subst hset
        simp only [upsert, hfind,
          find_update_cookie c _ (keyEq_update c old.creationTime) store old hfind,
          Option.some.injEq] at hfind1
        subst hfind1
        rfl
    | none =>
      simp only [hex] at hset
      simp only [Except.ok.injEq] at hset
      subst hset
      simp only [upsert, hfind,
        find_update_cookie c _ (keyEq_update c old.creationTime) store old hfind,
        Option.some.injEq] at hfind1
      subst hfind1
      rfl

/-- Witness for C7: the second identical set of sid=1 on a store already
holding its result leaves the store unchanged. -/
theorem setCookie_twice_same_as_once_witness :
    setCookie [sid1] "sid=1; Path=/" "http://example.com/" 5 = .ok [sid1] :=
  (setCookie_twice_same_as_once [] "sid=1; Path=/" "http://example.com/" 5 [sid1] rfl).1

/-- Witness for C8 at a concrete headers object. -/
theorem onRequest_empty_jar_string_leaves_headers_witness :
    onRequestHeaders "" [("Accept", "text/html"), ("Cookie", "a=b")] =
      [("Accept", "text/html"), ("Cookie", "a=b")] :=
  onRequest_empty_jar_string_leaves_headers [("Accept", "text/html"), ("Cookie", "a=b")]

/-- Witness for C3 at a concrete response carrying a repeated literal
Set-Cookie value across two header sources. -/
theorem onResponse_dedupes_literal_values_witness :
    storeSetCookiesFromResponse toyStore []
        (some ⟨some (.fetchHeaders ["a=1", "b=2"]), some ["a=1"], none⟩) =
      storeLoop toyStore []
        (dedupAux [] (extractSetCookieValues
          (some ⟨some (.fetchHeaders ["a=1", "b=2"]), some ["a=1"], none⟩))) ∧
    (dedupAux [] (extractSetCookieValues
      (some ⟨some (.fetchHeaders ["a=1", "b=2"]), some ["a=1"], none⟩))).Nodup :=
  ⟨(onResponse_dedupes_literal_values toyStore []
      (some ⟨some (.fetchHeaders ["a=1", "b=2"]), some ["a=1"], none⟩)).1,
   (onResponse_dedupes_literal_values toyStore []
      (some ⟨some (.fetchHeaders ["a=1", "b=2"]), some ["a=1"], none⟩)).2.1⟩

/-- Witness for C4 at a concrete world of list-valued jars: the two
fresh allocations are distinct identities. -/
theorem plugin_jar_isolation_and_sharing_witness :
    (mkPlugin none ([] : List String) ⟨0, fun _ => []⟩).1 ≠
      (mkPlugin none ([] : List String)
        (mkPlugin none ([] : List String) ⟨0, fun _ => []⟩).2).1 :=
  (plugin_jar_isolation_and_sharing (List String) [] ⟨0, fun _ => []⟩).1

end LCJ
